import Mathlib

/-!
Shallow embedding of the FusionAI registry-and-marketplace contracts.

The repository ships two revisions of each contract:
- ModelRegistry / Marketplace: the non-upgradeable originals
  (src/blockchain/contracts/FusionAI_Marketplace.sol, first two contracts).
- ModelRegistryU / MarketplaceU: the UUPS-upgradeable revisions with operator
  support (embedded after the originals in the same source tree).

Addresses are Nat (0 is the zero address), uint256 values are Nat; Solidity
0.8 checked arithmetic is made explicit where a claim-relevant path can
underflow (the payout subtraction).  A reverting call is an Except.error:
the caller's state is untouched, no events, no fund transfers.  Fund
transfers of the success path are returned as a list of (recipient, amount)
pairs; the internal safeTransfer skips zero amounts, mirroring the source.
-/

inductive SaleType
| NotForSale
| Copies
| Subscription
deriving DecidableEq

structure Model where
  owner : Nat
  ipfsMetadataHash : String
  listTimestamp : Nat
  saleType : SaleType
deriving DecidableEq

/-- The default value of a Solidity mapping entry of type Model. -/
def zeroModel : Model :=
  { owner := 0, ipfsMetadataHash := "", listTimestamp := 0, saleType := SaleType.NotForSale }

inductive RegError
| hashAlreadyRegistered
| emptyHash
| notModelOwner
| duplicateNewHash
| notOwnerOrOperator
| notContractOwner
deriving DecidableEq

inductive RegEvent
| ModelRegistered (modelId owner : Nat) (ipfsMetadataHash : String) (saleType : SaleType)
| ModelMetadataUpdated (modelId : Nat) (newIpfsMetadataHash : String)
| ModelSaleTypeSet (modelId : Nat) (newSaleType : SaleType)
| OperatorSet (op : Nat) (approved : Bool)
deriving DecidableEq

namespace ModelRegistry

structure State where
  models : Nat → Model
  ipfsHashExists : String → Bool
  modelCounter : Nat

def initState : State :=
  { models := fun _ => zeroModel, ipfsHashExists := fun _ => false, modelCounter := 0 }

/-- FusionAI_ModelRegistry.registerModel: duplicate-hash check, nonempty check
(bytes length positive, equivalently the string is nonempty), then store the
model at the pre-increment counter, mark the hash taken, bump the counter. -/
def registerModel (s : State) (sender now : Nat) (hash : String) (saleType : SaleType) :
    Except RegError (State × Nat × List RegEvent) :=
  if s.ipfsHashExists hash then Except.error RegError.hashAlreadyRegistered
  else if hash.length = 0 then Except.error RegError.emptyHash
  else
    let newModelId := s.modelCounter
    Except.ok
      ({ models := fun i =>
           if i = newModelId then
             { owner := sender, ipfsMetadataHash := hash, listTimestamp := now, saleType := saleType }
           else s.models i,
         ipfsHashExists := fun h => if h = hash then true else s.ipfsHashExists h,
         modelCounter := s.modelCounter + 1 },
       newModelId, [RegEvent.ModelRegistered newModelId sender hash saleType])

/-- FusionAI_ModelRegistry.updateModelMetadata: onlyModelOwner, nonempty check,
then only if the new hash differs (keccak comparison of the strings, modelled
as string equality): free the old hash, require the new one unclaimed, claim
it, store it, emit.  An update to the identical hash falls through as a
success with no event and no state change. -/
def updateModelMetadata (s : State) (sender modelId : Nat) (newHash : String) :
    Except RegError (State × List RegEvent) :=
  if (s.models modelId).owner = sender then
    if newHash.length = 0 then Except.error RegError.emptyHash
    else if (s.models modelId).ipfsMetadataHash ≠ newHash then
      let oldHash := (s.models modelId).ipfsMetadataHash
      let freed : String → Bool := fun h => if h = oldHash then false else s.ipfsHashExists h
      if freed newHash then Except.error RegError.duplicateNewHash
      else
        Except.ok
          ({ s with
             ipfsHashExists := fun h => if h = newHash then true else freed h,
             models := fun i =>
               if i = modelId then { s.models i with ipfsMetadataHash := newHash } else s.models i },
           [RegEvent.ModelMetadataUpdated modelId newHash])
    else Except.ok (s, [])
  else Except.error RegError.notModelOwner

/-- FusionAI_ModelRegistry.setSaleType: onlyModelOwner; update and emit only
when the sale type actually changes. -/
def setSaleType (s : State) (sender modelId : Nat) (saleType : SaleType) :
    Except RegError (State × List RegEvent) :=
  if (s.models modelId).owner = sender then
    if (s.models modelId).saleType ≠ saleType then
      Except.ok
        ({ s with
           models := fun i =>
             if i = modelId then { s.models i with saleType := saleType } else s.models i },
         [RegEvent.ModelSaleTypeSet modelId saleType])
    else Except.ok (s, [])
  else Except.error RegError.notModelOwner

def getModel (s : State) (modelId : Nat) : Model := s.models modelId

def getModelIdCounter (s : State) : Nat := s.modelCounter

def modelCount (s : State) : Nat := s.modelCounter

end ModelRegistry

namespace ModelRegistryU

structure State where
  contractOwner : Nat
  models : Nat → Model
  ipfsHashExists : String → Bool
  modelCounter : Nat
  operators : Nat → Bool

/-- FusionAI_ModelRegistryUpgradeable.initialize(initialOwner). -/
def initState (initialOwner : Nat) : State :=
  { contractOwner := initialOwner, models := fun _ => zeroModel,
    ipfsHashExists := fun _ => false, modelCounter := 0, operators := fun _ => false }

/-- FusionAI_ModelRegistryUpgradeable.setOperator: onlyOwner. -/
def setOperator (s : State) (sender op : Nat) (approved : Bool) :
    Except RegError (State × List RegEvent) :=
  if sender = s.contractOwner then
    Except.ok
      ({ s with operators := fun a => if a = op then approved else s.operators a },
       [RegEvent.OperatorSet op approved])
  else Except.error RegError.notContractOwner

/-- FusionAI_ModelRegistryUpgradeable.registerModel: duplicate-hash check only
(this revision has no empty-hash validation), store at the pre-increment
counter, mark the hash taken, bump the counter. -/
def registerModel (s : State) (sender now : Nat) (hash : String) (saleType : SaleType) :
    Except RegError (State × Nat × List RegEvent) :=
  if s.ipfsHashExists hash then Except.error RegError.hashAlreadyRegistered
  else
    let modelId := s.modelCounter
    Except.ok
      ({ s with
         models := fun i =>
           if i = modelId then
             { owner := sender, ipfsMetadataHash := hash, listTimestamp := now, saleType := saleType }
           else s.models i,
         ipfsHashExists := fun h => if h = hash then true else s.ipfsHashExists h,
         modelCounter := s.modelCounter + 1 },
       modelId, [RegEvent.ModelRegistered modelId sender hash saleType])

/-- FusionAI_ModelRegistryUpgradeable.updateModelMetadata: owner-or-operator,
then require the new hash unclaimed BEFORE freeing the old one (so updating a
model to its own current hash reverts here), then free the old hash, claim
the new one (later write wins when they coincide), store, emit. -/
def updateModelMetadata (s : State) (sender modelId : Nat) (newHash : String) :
    Except RegError (State × List RegEvent) :=
  if (s.models modelId).owner = sender ∨ s.operators sender then
    if s.ipfsHashExists newHash then Except.error RegError.duplicateNewHash
    else
      let oldHash := (s.models modelId).ipfsMetadataHash
      Except.ok
        ({ s with
           ipfsHashExists := fun h =>
             if h = newHash then true else if h = oldHash then false else s.ipfsHashExists h,
           models := fun i =>
             if i = modelId then { s.models i with ipfsMetadataHash := newHash } else s.models i },
         [RegEvent.ModelMetadataUpdated modelId newHash])
  else Except.error RegError.notOwnerOrOperator

/-- FusionAI_ModelRegistryUpgradeable.setSaleType: owner-or-operator; update
and emit only when the sale type actually changes. -/
def setSaleType (s : State) (sender modelId : Nat) (saleType : SaleType) :
    Except RegError (State × List RegEvent) :=
  if (s.models modelId).owner = sender ∨ s.operators sender then
    if (s.models modelId).saleType ≠ saleType then
      Except.ok
        ({ s with
           models := fun i =>
             if i = modelId then { s.models i with saleType := saleType } else s.models i },
         [RegEvent.ModelSaleTypeSet modelId saleType])
    else Except.ok (s, [])
  else Except.error RegError.notOwnerOrOperator

def getModel (s : State) (modelId : Nat) : Model := s.models modelId

def getModelIdCounter (s : State) : Nat := s.modelCounter

def modelCount (s : State) : Nat := s.modelCounter

end ModelRegistryU

structure CopySale where
  price : Nat
  totalCopies : Nat
  soldCopies : Nat
deriving DecidableEq

/-- The default value of a Solidity mapping entry of type CopySale. -/
def zeroCopySale : CopySale := { price := 0, totalCopies := 0, soldCopies := 0 }

structure Subscription where
  rate : Nat
  durationSeconds : Nat
deriving DecidableEq

/-- The default value of a Solidity mapping entry of type Subscription. -/
def zeroSubscription : Subscription := { rate := 0, durationSeconds := 0 }

inductive MarketError
| invalidModelId
| notModelOwner
| invalidPrice
| invalidTotalCopies
| alreadyListedForCopies
| notListedForCopies
| incorrectPayment
| soldOut
| transferFailed
| invalidFeePercent
| zeroAddress
| noFeesToWithdraw
| arithmeticUnderflow
| registryCallError (e : RegError)
deriving DecidableEq

inductive MarketEvent
| ItemListedForCopies (modelId owner price totalCopies : Nat)
| ItemPurchased (modelId buyer price seller platformWallet platformFee : Nat)
| ItemListedForSubscription (modelId owner rate durationSeconds : Nat)
| Subscribed (modelId subscriber expiryTimestamp : Nat)
| FromRegistry (e : RegEvent)
deriving DecidableEq

/-- The internal safeTransfer helper: issues a transfer only when the amount
is positive.  A transfer is a (recipient, amount) pair. -/
def safeTransfer (dest amount : Nat) : List (Nat × Nat) :=
  if amount > 0 then [(dest, amount)] else []

/-- Solidity 0.8 checked uint256 subtraction: underflow reverts. -/
def checkedSub (a b : Nat) : Option Nat :=
  if b ≤ a then some (a - b) else none

namespace Marketplace

/-- State of the non-upgradeable FusionAI_Marketplace together with the
non-upgradeable registry it points at; marketplaceAddr is the address the
registry sees when the marketplace itself makes a call. -/
structure State where
  registry : ModelRegistry.State
  marketplaceAddr : Nat
  platformFeeWallet : Nat
  platformFeePercent : Nat
  copySales : Nat → CopySale
  subscriptions : Nat → Subscription
  userSubscriptions : Nat → Nat → Nat

/-- FusionAI_Marketplace.listItemForCopies: price and capacity checks, model
existence via the zero-owner sentinel, ownership, one-shot listing guard,
then store the sale and emit.  This revision does not touch the registry's
sale type. -/
def listItemForCopies (s : State) (sender modelId price totalCopies : Nat) :
    Except MarketError (State × List MarketEvent) :=
  if price = 0 then Except.error MarketError.invalidPrice
  else if totalCopies = 0 then Except.error MarketError.invalidTotalCopies
  else
    let modelOwner := (s.registry.models modelId).owner
    if modelOwner = 0 then Except.error MarketError.invalidModelId
    else if modelOwner ≠ sender then Except.error MarketError.notModelOwner
    else if (s.copySales modelId).price > 0 then Except.error MarketError.alreadyListedForCopies
    else
      Except.ok
        ({ s with
           copySales := fun i =>
             if i = modelId then { price := price, totalCopies := totalCopies, soldCopies := 0 }
             else s.copySales i },
         [MarketEvent.ItemListedForCopies modelId sender price totalCopies])

/-- FusionAI_Marketplace.buyCopy: not-listed, sold-out, then exact-payment
check (msg.value must equal the price); fee computed from the listing price,
payout is the checked subtraction; funds move to the platform wallet and the
seller read from the registry (zero-owner safety check). -/
def buyCopy (s : State) (sender modelId msgValue : Nat) :
    Except MarketError (State × List (Nat × Nat) × List MarketEvent) :=
  let sale := s.copySales modelId
  if sale.price = 0 then Except.error MarketError.notListedForCopies
  else if sale.soldCopies ≥ sale.totalCopies then Except.error MarketError.soldOut
  else if msgValue ≠ sale.price then Except.error MarketError.incorrectPayment
  else
    let platformFeeAmount := sale.price * s.platformFeePercent / 100
    match checkedSub sale.price platformFeeAmount with
    | none => Except.error MarketError.arithmeticUnderflow
    | some developerPayout =>
      let seller := (s.registry.models modelId).owner
      if seller = 0 then Except.error MarketError.invalidModelId
      else
        Except.ok
          ({ s with
             copySales := fun i =>
               if i = modelId then { sale with soldCopies := sale.soldCopies + 1 }
               else s.copySales i },
           safeTransfer s.platformFeeWallet platformFeeAmount ++ safeTransfer seller developerPayout,
           [MarketEvent.ItemPurchased modelId sender sale.price seller s.platformFeeWallet
              platformFeeAmount])

/-- FusionAI_Marketplace.listItemForSubscription: ownership check, then an
external call registry.setSaleType(modelId, Subscription) in which the
registry sees the marketplace contract as msg.sender (a registry revert
aborts the whole call), then store the subscription terms (no rate or
duration validation) and emit. -/
def listItemForSubscription (s : State) (sender modelId rate durationSeconds : Nat) :
    Except MarketError (State × List MarketEvent) :=
  let model := ModelRegistry.getModel s.registry modelId
  if model.owner ≠ sender then Except.error MarketError.notModelOwner
  else
    match ModelRegistry.setSaleType s.registry s.marketplaceAddr modelId SaleType.Subscription with
    | Except.error e => Except.error (MarketError.registryCallError e)
    | Except.ok (rs, revs) =>
      Except.ok
        ({ s with
           registry := rs,
           subscriptions := fun i =>
             if i = modelId then { rate := rate, durationSeconds := durationSeconds }
             else s.subscriptions i },
         revs.map MarketEvent.FromRegistry ++
           [MarketEvent.ItemListedForSubscription modelId sender rate durationSeconds])

/-- FusionAI_Marketplace.subscribe: not-listed when the stored rate or
duration is zero (the source reuses the NotListedForCopies error), at-least
payment check, expiry stacking (extend from the current expiry while it is
still in the future, otherwise start from now), fee split on msg.value,
transfers, event. -/
def subscribe (s : State) (sender modelId msgValue now : Nat) :
    Except MarketError (State × List (Nat × Nat) × List MarketEvent) :=
  let sub := s.subscriptions modelId
  if sub.rate = 0 ∨ sub.durationSeconds = 0 then Except.error MarketError.notListedForCopies
  else if msgValue < sub.rate then Except.error MarketError.incorrectPayment
  else
    let currentExpiry := s.userSubscriptions modelId sender
    let newExpiry :=
      if currentExpiry > now then currentExpiry + sub.durationSeconds
      else now + sub.durationSeconds
    let platformFee := msgValue * s.platformFeePercent / 100
    match checkedSub msgValue platformFee with
    | none => Except.error MarketError.arithmeticUnderflow
    | some payout =>
      let model := ModelRegistry.getModel s.registry modelId
      Except.ok
        ({ s with
           userSubscriptions := fun i a =>
             if i = modelId ∧ a = sender then newExpiry else s.userSubscriptions i a },
         safeTransfer s.platformFeeWallet platformFee ++ safeTransfer model.owner payout,
         [MarketEvent.Subscribed modelId sender newExpiry])

def checkSubscription (s : State) (modelId user now : Nat) : Bool :=
  s.userSubscriptions modelId user ≥ now

end Marketplace

namespace MarketplaceU

/-- State of FusionAI_MarketplaceUpgradeable together with the upgradeable
registry it points at. -/
structure State where
  registry : ModelRegistryU.State
  marketplaceAddr : Nat
  platformFeeWallet : Nat
  platformFeePercent : Nat
  copySales : Nat → CopySale
  subscriptions : Nat → Subscription
  userSubscriptions : Nat → Nat → Nat

/-- FusionAI_MarketplaceUpgradeable.listItemForCopies: ownership first, then
price, capacity and one-shot guards, then an external call
registry.setSaleType(modelId, Copies) made with the marketplace contract as
msg.sender (a registry revert aborts the whole call), then store and emit. -/
def listItemForCopies (s : State) (sender modelId price totalCopies : Nat) :
    Except MarketError (State × List MarketEvent) :=
  let model := ModelRegistryU.getModel s.registry modelId
  if model.owner ≠ sender then Except.error MarketError.notModelOwner
  else if price = 0 then Except.error MarketError.invalidPrice
  else if totalCopies = 0 then Except.error MarketError.invalidTotalCopies
  else if (s.copySales modelId).price > 0 then Except.error MarketError.alreadyListedForCopies
  else
    match ModelRegistryU.setSaleType s.registry s.marketplaceAddr modelId SaleType.Copies with
    | Except.error e => Except.error (MarketError.registryCallError e)
    | Except.ok (rs, revs) =>
      Except.ok
        ({ s with
           registry := rs,
           copySales := fun i =>
             if i = modelId then { price := price, totalCopies := totalCopies, soldCopies := 0 }
             else s.copySales i },
         revs.map MarketEvent.FromRegistry ++
           [MarketEvent.ItemListedForCopies modelId sender price totalCopies])

/-- FusionAI_MarketplaceUpgradeable.buyCopy: not-listed, then AT-LEAST
payment check (msg.value below the price reverts, overpayment is accepted),
then the sold-out check; fee computed from msg.value; no zero-seller
check in this revision. -/
def buyCopy (s : State) (sender modelId msgValue : Nat) :
    Except MarketError (State × List (Nat × Nat) × List MarketEvent) :=
  let sale := s.copySales modelId
  if sale.price = 0 then Except.error MarketError.notListedForCopies
  else if msgValue < sale.price then Except.error MarketError.incorrectPayment
  else if sale.soldCopies ≥ sale.totalCopies then Except.error MarketError.soldOut
  else
    let model := ModelRegistryU.getModel s.registry modelId
    let platformFee := msgValue * s.platformFeePercent / 100
    match checkedSub msgValue platformFee with
    | none => Except.error MarketError.arithmeticUnderflow
    | some payout =>
      Except.ok
        ({ s with
           copySales := fun i =>
             if i = modelId then { sale with soldCopies := sale.soldCopies + 1 }
             else s.copySales i },
         safeTransfer s.platformFeeWallet platformFee ++ safeTransfer model.owner payout,
         [MarketEvent.ItemPurchased modelId sender sale.price model.owner s.platformFeeWallet
            platformFee])

/-- FusionAI_MarketplaceUpgradeable.listItemForSubscription: ownership check,
external registry.setSaleType(modelId, Subscription) with the marketplace as
msg.sender, then store the terms (no rate or duration validation, existing
terms freely overwritten) and emit. -/
def listItemForSubscription (s : State) (sender modelId rate durationSeconds : Nat) :
    Except MarketError (State × List MarketEvent) :=
  let model := ModelRegistryU.getModel s.registry modelId
  if model.owner ≠ sender then Except.error MarketError.notModelOwner
  else
    match ModelRegistryU.setSaleType s.registry s.marketplaceAddr modelId SaleType.Subscription with
    | Except.error e => Except.error (MarketError.registryCallError e)
    | Except.ok (rs, revs) =>
      Except.ok
        ({ s with
           registry := rs,
           subscriptions := fun i =>
             if i = modelId then { rate := rate, durationSeconds := durationSeconds }
             else s.subscriptions i },
         revs.map MarketEvent.FromRegistry ++
           [MarketEvent.ItemListedForSubscription modelId sender rate durationSeconds])

/-- FusionAI_MarketplaceUpgradeable.subscribe: identical logic to the
non-upgradeable revision. -/
def subscribe (s : State) (sender modelId msgValue now : Nat) :
    Except MarketError (State × List (Nat × Nat) × List MarketEvent) :=
  let sub := s.subscriptions modelId
  if sub.rate = 0 ∨ sub.durationSeconds = 0 then Except.error MarketError.notListedForCopies
  else if msgValue < sub.rate then Except.error MarketError.incorrectPayment
  else
    let currentExpiry := s.userSubscriptions modelId sender
    let newExpiry :=
      if currentExpiry > now then currentExpiry + sub.durationSeconds
      else now + sub.durationSeconds
    let platformFee := msgValue * s.platformFeePercent / 100
    match checkedSub msgValue platformFee with
    | none => Except.error MarketError.arithmeticUnderflow
    | some payout =>
      let model := ModelRegistryU.getModel s.registry modelId
      Except.ok
        ({ s with
           userSubscriptions := fun i a =>
             if i = modelId ∧ a = sender then newExpiry else s.userSubscriptions i a },
         safeTransfer s.platformFeeWallet platformFee ++ safeTransfer model.owner payout,
         [MarketEvent.Subscribed modelId sender newExpiry])

def checkSubscription (s : State) (modelId user now : Nat) : Bool :=
  s.userSubscriptions modelId user ≥ now

end MarketplaceU

/-- True when an Except result is a success. -/
def isOkE {ε α : Type} : Except ε α → Bool
| Except.ok _ => true
| Except.error _ => false

/-- Extract a success value, with an explicit default for the error case. -/
def okD {ε α : Type} (d : α) : Except ε α → α
| Except.ok a => a
| Except.error _ => d

/-- No two distinct registered assets (ids strictly below the counter) carry
the same content hash. -/
def HashesUnique (models : Nat → Model) (counter : Nat) : Prop :=
  ∀ i j, i < counter → j < counter → i ≠ j →
    (models i).ipfsMetadataHash ≠ (models j).ipfsMetadataHash

/-- One successful state-mutating call of the non-upgradeable registry, made
by a nonzero caller (msg.sender is never the zero address). -/
inductive RStep : ModelRegistry.State → ModelRegistry.State → Prop
| register (s s2 : ModelRegistry.State) (sender now modelId : Nat) (hash : String)
    (st : SaleType) (evs : List RegEvent) : sender ≠ 0 →
    ModelRegistry.registerModel s sender now hash st = Except.ok (s2, modelId, evs) →
    RStep s s2
| update (s s2 : ModelRegistry.State) (sender modelId : Nat) (newHash : String)
    (evs : List RegEvent) : sender ≠ 0 →
    ModelRegistry.updateModelMetadata s sender modelId newHash = Except.ok (s2, evs) →
    RStep s s2
| setSale (s s2 : ModelRegistry.State) (sender modelId : Nat) (st : SaleType)
    (evs : List RegEvent) : sender ≠ 0 →
    ModelRegistry.setSaleType s sender modelId st = Except.ok (s2, evs) →
    RStep s s2

/-- States of the non-upgradeable registry reachable from deployment. -/
inductive RReachable : ModelRegistry.State → Prop
| init : RReachable ModelRegistry.initState
| step (s s2 : ModelRegistry.State) : RReachable s → RStep s s2 → RReachable s2

/-- Inductive invariant of the non-upgradeable registry: every registered
hash is marked taken, registered hashes are pairwise distinct, slots at or
above the counter still hold the mapping default, and the empty hash is
never marked taken. -/
def RegInv (s : ModelRegistry.State) : Prop :=
  (∀ i, i < s.modelCounter → s.ipfsHashExists ((s.models i).ipfsMetadataHash) = true) ∧
  HashesUnique s.models s.modelCounter ∧
  (∀ i, s.modelCounter ≤ i → s.models i = zeroModel) ∧
  s.ipfsHashExists "" = false

lemma regInv_init : RegInv ModelRegistry.initState := by
  refine ⟨?_, ?_, ?_, rfl⟩
  · intro i hi; exact absurd hi (Nat.not_lt_zero i)
  · intro i j hi; exact absurd hi (Nat.not_lt_zero i)
  · intro i _; rfl

lemma regInv_register (s s2 : ModelRegistry.State) (sender now modelId : Nat) (hash : String)
    (st : SaleType) (evs : List RegEvent)
    (hok : ModelRegistry.registerModel s sender now hash st = Except.ok (s2, modelId, evs))
    (hinv : RegInv s) : RegInv s2 := by
  obtain ⟨inv1, inv2, inv3, inv4⟩ := hinv
  unfold ModelRegistry.registerModel at hok
  split at hok
  · exact absurd hok (by simp)
  case isFalse hdup =>
    split at hok
    · exact absurd hok (by simp)
    case isFalse hlen =>
      simp only [Except.ok.injEq, Prod.mk.injEq] at hok
      obtain ⟨hs2, _, _⟩ := hok
      subst hs2
      have hdupF : s.ipfsHashExists hash = false := by
        cases hcase : s.ipfsHashExists hash with
        | false => rfl
        | true => exact absurd hcase hdup
      refine ⟨?_, ?_, ?_, ?_⟩
      · intro i hi
        simp only []
        by_cases hic : i = s.modelCounter
        · simp [hic]
        · have hi2 : i < s.modelCounter := by
            rcases Nat.lt_succ_iff_lt_or_eq.mp hi with h | h
            · exact h
            · exact absurd h hic
          simp only [if_neg hic]
          by_cases hh : (s.models i).ipfsMetadataHash = hash
          · simp [hh]
          · simp [hh, inv1 i hi2]
      · intro i j hi hj hij
        simp only []
        by_cases hic : i = s.modelCounter <;> by_cases hjc : j = s.modelCounter
        · exact absurd (hic.trans hjc.symm) hij
        · have hj2 : j < s.modelCounter := by
            rcases Nat.lt_succ_iff_lt_or_eq.mp hj with h | h
            · exact h
            · exact absurd h hjc
          simp only [if_pos hic, if_neg hjc]
          intro hcontra
          have := inv1 j hj2
          rw [← hcontra] at this
          rw [this] at hdupF
          exact Bool.true_eq_false.mp hdupF
        · have hi2 : i < s.modelCounter := by
            rcases Nat.lt_succ_iff_lt_or_eq.mp hi with h | h
            · exact h
            · exact absurd h hic
          simp only [if_neg hic, if_pos hjc]
          intro hcontra
          have := inv1 i hi2
          rw [hcontra] at this
          rw [this] at hdupF
          exact Bool.true_eq_false.mp hdupF
        · have hi2 : i < s.modelCounter := by
            rcases Nat.lt_succ_iff_lt_or_eq.mp hi with h | h
            · exact h
            · exact absurd h hic
          have hj2 : j < s.modelCounter := by
            rcases Nat.lt_succ_iff_lt_or_eq.mp hj with h | h
            · exact h
            · exact absurd h hjc
          simp only [if_neg hic, if_neg hjc]
          exact inv2 i j hi2 hj2 hij
      · intro i hi
        simp only [] at hi ⊢
        have hic : i ≠ s.modelCounter := by omega
        have hi2 : s.modelCounter ≤ i := by omega
        simp only [if_neg hic]
        exact inv3 i hi2
      · simp only []
        have hne : "" ≠ hash := by
          intro hcontra
          apply hlen
          rw [← hcontra]
          rfl
        simp [hne, inv4]

lemma regInv_update (s s2 : ModelRegistry.State) (sender modelId : Nat) (newHash : String)
    (evs : List RegEvent) (hsender : sender ≠ 0)
    (hok : ModelRegistry.updateModelMetadata s sender modelId newHash = Except.ok (s2, evs))
    (hinv : RegInv s) : RegInv s2 := by
  obtain ⟨inv1, inv2, inv3, inv4⟩ := hinv
  unfold ModelRegistry.updateModelMetadata at hok
  split at hok
  case isTrue howner =>
    have hmid : modelId < s.modelCounter := by
      by_contra hge
      push_neg at hge
      rw [inv3 modelId hge] at howner
      exact hsender howner.symm
    split at hok
    · exact absurd hok (by simp)
    case isFalse hlen =>
      split at hok
      case isTrue hdiff =>
        simp only [] at hok
        have hne : ¬ (newHash = (s.models modelId).ipfsMetadataHash) :=
          fun hcontra => hdiff hcontra.symm
        rw [if_neg hne] at hok
        split at hok
        · exact absurd hok (by simp)
        case isFalse hfreed =>
          simp only [Except.ok.injEq, Prod.mk.injEq] at hok
          obtain ⟨hs2, _⟩ := hok
          subst hs2
          have hnewF : s.ipfsHashExists newHash = false := by
            cases hcase : s.ipfsHashExists newHash with
            | false => rfl
            | true => exact absurd hcase hfreed
          refine ⟨?_, ?_, ?_, ?_⟩
          · intro i hi
            simp only [] at hi ⊢
            by_cases hic : i = modelId
            · simp [hic]
            · have h1 : (s.models i).ipfsMetadataHash ≠ newHash := by
                intro hcontra
                have := inv1 i hi
                rw [hcontra, hnewF] at this
                exact Bool.false_eq_true.mp this
              have h2 : (s.models i).ipfsMetadataHash ≠ (s.models modelId).ipfsMetadataHash :=
                inv2 i modelId hi hmid hic
              simp [hic, h1, h2, inv1 i hi]
          · intro i j hi hj hij
            simp only [] at hi hj ⊢
            by_cases hic : i = modelId <;> by_cases hjc : j = modelId
            · exact absurd (hic.trans hjc.symm) hij
            · simp only [if_pos hic, if_neg hjc]
              intro hcontra
              have h3 : s.ipfsHashExists newHash = true := by
                have h4 := inv1 j hj
                rw [← hcontra] at h4
                exact h4
              rw [hnewF] at h3
              exact Bool.false_eq_true.mp h3
            · simp only [if_neg hic, if_pos hjc]
              intro hcontra
              have h3 : s.ipfsHashExists newHash = true := by
                have h4 := inv1 i hi
                rw [hcontra] at h4
                exact h4
              rw [hnewF] at h3
              exact Bool.false_eq_true.mp h3
            · simp only [if_neg hic, if_neg hjc]
              exact inv2 i j hi hj hij
          · intro i hi
            simp only [] at hi ⊢
            have hic : i ≠ modelId := by omega
            simp only [if_neg hic]
            exact inv3 i hi
          · simp only []
            have hne : ("" : String) ≠ newHash := by
              intro hcontra
              apply hlen
              rw [← hcontra]
              rfl
            by_cases hold : ("" : String) = (s.models modelId).ipfsMetadataHash
            · simp [hne, hold, hdiff]
            · simp [hne, hold, inv4]
      case isFalse hsame =>
        simp only [Except.ok.injEq, Prod.mk.injEq] at hok
        obtain ⟨hs2, _⟩ := hok
        subst hs2
        exact ⟨inv1, inv2, inv3, inv4⟩
  · exact absurd hok (by simp)

lemma regInv_setSale (s s2 : ModelRegistry.State) (sender modelId : Nat) (st : SaleType)
    (evs : List RegEvent) (hsender : sender ≠ 0)
    (hok : ModelRegistry.setSaleType s sender modelId st = Except.ok (s2, evs))
    (hinv : RegInv s) : RegInv s2 := by
  obtain ⟨inv1, inv2, inv3, inv4⟩ := hinv
  unfold ModelRegistry.setSaleType at hok
  split at hok
  case isTrue howner =>
    have hmid : modelId < s.modelCounter := by
      by_contra hge
      push_neg at hge
      rw [inv3 modelId hge] at howner
      exact hsender howner.symm
    split at hok
    case isTrue hdiff =>
      simp only [Except.ok.injEq, Prod.mk.injEq] at hok
      obtain ⟨hs2, _⟩ := hok
      subst hs2
      have hashEq : ∀ i,
          ((if i = modelId then { s.models i with saleType := st } else s.models i) :
            Model).ipfsMetadataHash = (s.models i).ipfsMetadataHash := by
        intro i
        by_cases hic : i = modelId <;> simp [hic]
      refine ⟨?_, ?_, ?_, ?_⟩
      · intro i hi
        simp only [] at hi ⊢
        rw [hashEq i]
        exact inv1 i hi
      · intro i j hi hj hij
        simp only [] at hi hj ⊢
        rw [hashEq i, hashEq j]
        exact inv2 i j hi hj hij
      · intro i hi
        simp only [] at hi ⊢
        have hic : i ≠ modelId := by omega
        simp only [if_neg hic]
        exact inv3 i hi
      · exact inv4
    case isFalse hsame =>
      simp only [Except.ok.injEq, Prod.mk.injEq] at hok
      obtain ⟨hs2, _⟩ := hok
      subst hs2
      exact ⟨inv1, inv2, inv3, inv4⟩
  · exact absurd hok (by simp)

lemma regInv_rstep (s s2 : ModelRegistry.State) (h : RStep s s2) (hinv : RegInv s) :
    RegInv s2 := by
  cases h with
  | register sender now modelId hash st evs hsender hok =>
    exact regInv_register s s2 sender now modelId hash st evs hok hinv
  | update sender modelId newHash evs hsender hok =>
    exact regInv_update s s2 sender modelId newHash evs hsender hok hinv
  | setSale sender modelId st evs hsender hok =>
    exact regInv_setSale s s2 sender modelId st evs hsender hok hinv

lemma regInv_reachable (s : ModelRegistry.State) (h : RReachable s) : RegInv s := by
  induction h with
  | init => exact regInv_init
  | step s s2 _ hstep ih => exact regInv_rstep s s2 hstep ih

/-- One successful state-mutating call of the upgradeable registry, made by a
nonzero caller. -/
inductive RUStep : ModelRegistryU.State → ModelRegistryU.State → Prop
| register (s s2 : ModelRegistryU.State) (sender now modelId : Nat) (hash : String)
    (st : SaleType) (evs : List RegEvent) : sender ≠ 0 →
    ModelRegistryU.registerModel s sender now hash st = Except.ok (s2, modelId, evs) →
    RUStep s s2
| update (s s2 : ModelRegistryU.State) (sender modelId : Nat) (newHash : String)
    (evs : List RegEvent) : sender ≠ 0 →
    ModelRegistryU.updateModelMetadata s sender modelId newHash = Except.ok (s2, evs) →
    RUStep s s2
| setSale (s s2 : ModelRegistryU.State) (sender modelId : Nat) (st : SaleType)
    (evs : List RegEvent) : sender ≠ 0 →
    ModelRegistryU.setSaleType s sender modelId st = Except.ok (s2, evs) →
    RUStep s s2
| setOp (s s2 : ModelRegistryU.State) (sender op : Nat) (approved : Bool)
    (evs : List RegEvent) : sender ≠ 0 →
    ModelRegistryU.setOperator s sender op approved = Except.ok (s2, evs) →
    RUStep s s2

/-- States of the upgradeable registry reachable from initialization. -/
inductive RUReachable : ModelRegistryU.State → Prop
| init (initialOwner : Nat) : RUReachable (ModelRegistryU.initState initialOwner)
| step (s s2 : ModelRegistryU.State) : RUReachable s → RUStep s s2 → RUReachable s2

def rState1 : ModelRegistry.State :=
  (okD (ModelRegistry.initState, 0, [])
    (ModelRegistry.registerModel ModelRegistry.initState 2 100 "m1" SaleType.NotForSale)).1

def rState2 : ModelRegistry.State :=
  (okD (rState1, 0, []) (ModelRegistry.registerModel rState1 3 150 "m2" SaleType.Copies)).1

lemma rState1_reachable : RReachable rState1 := by
  refine RReachable.step _ _ RReachable.init ?_
  exact RStep.register _ _ 2 100 0 "m1" SaleType.NotForSale
    [RegEvent.ModelRegistered 0 2 "m1" SaleType.NotForSale] (by decide) rfl

lemma rState2_reachable : RReachable rState2 := by
  refine RReachable.step _ _ rState1_reachable ?_
  exact RStep.register _ _ 3 150 1 "m2" SaleType.Copies
    [RegEvent.ModelRegistered 1 3 "m2" SaleType.Copies] (by decide) rfl

/-- Deployment state of the upgradeable registry, administrator address 1. -/
def ruS0 : ModelRegistryU.State := ModelRegistryU.initState 1

/-- Address 2 registers the empty content hash (no validation rejects it). -/
def ruS1 : ModelRegistryU.State :=
  (okD (ruS0, 0, []) (ModelRegistryU.registerModel ruS0 2 100 "" SaleType.NotForSale)).1

/-- The administrator approves address 3 as an operator. -/
def ruS2 : ModelRegistryU.State :=
  (okD (ruS1, []) (ModelRegistryU.setOperator ruS1 1 3 true)).1

/-- The operator updates metadata of the nonexistent asset 999, which frees
the empty hash held by the default slot value while asset 0 still uses it. -/
def ruS3 : ModelRegistryU.State :=
  (okD (ruS2, []) (ModelRegistryU.updateModelMetadata ruS2 3 999 "QmX")).1

/-- Address 4 registers the empty content hash again. -/
def ruS4 : ModelRegistryU.State :=
  (okD (ruS3, 0, []) (ModelRegistryU.registerModel ruS3 4 200 "" SaleType.NotForSale)).1

lemma ruS4_reachable : RUReachable ruS4 := by
  have h0 : RUReachable ruS0 := RUReachable.init 1
  have h1 : RUReachable ruS1 :=
    RUReachable.step _ _ h0 (RUStep.register _ _ 2 100 0 "" SaleType.NotForSale
      [RegEvent.ModelRegistered 0 2 "" SaleType.NotForSale] (by decide) rfl)
  have h2 : RUReachable ruS2 :=
    RUReachable.step _ _ h1 (RUStep.setOp _ _ 1 3 true
      [RegEvent.OperatorSet 3 true] (by decide) rfl)
  have h3 : RUReachable ruS3 :=
    RUReachable.step _ _ h2 (RUStep.update _ _ 3 999 "QmX"
      [RegEvent.ModelMetadataUpdated 999 "QmX"] (by decide) rfl)
  exact RUReachable.step _ _ h3 (RUStep.register _ _ 4 200 1 "" SaleType.NotForSale
    [RegEvent.ModelRegistered 1 4 "" SaleType.NotForSale] (by decide) rfl)

/-- C2 (amended): in the non-upgradeable registry, every reachable state
(nonzero callers) keeps registered content hashes pairwise distinct;
registering an already-assigned hash fails with the duplicate error; and a
successful update to a different hash atomically frees the old hash, claims
the new one, stores it, and preserves uniqueness. -/
theorem C2_registry_hash_uniqueness (s : ModelRegistry.State) (h : RReachable s) :
    HashesUnique s.models s.modelCounter ∧
    (∀ sender now hash saleType, s.ipfsHashExists hash = true →
       ModelRegistry.registerModel s sender now hash saleType =
         Except.error RegError.hashAlreadyRegistered) ∧
    (∀ sender modelId newHash s2 evs, sender ≠ 0 →
       ModelRegistry.updateModelMetadata s sender modelId newHash = Except.ok (s2, evs) →
       (s.models modelId).ipfsMetadataHash ≠ newHash →
       s2.ipfsHashExists ((s.models modelId).ipfsMetadataHash) = false ∧
       s2.ipfsHashExists newHash = true ∧
       (s2.models modelId).ipfsMetadataHash = newHash ∧
       HashesUnique s2.models s2.modelCounter) := by
  have hinv := regInv_reachable s h
  refine ⟨hinv.2.1, ?_, ?_⟩
  · intro sender now hash saleType hex
    unfold ModelRegistry.registerModel
    simp [hex]
  · intro sender modelId newHash s2 evs hsz hok hdiff
    have huniq2 := (regInv_update s s2 sender modelId newHash evs hsz hok hinv).2.1
    unfold ModelRegistry.updateModelMetadata at hok
    split at hok
    case isTrue howner =>
      split at hok
      · exact absurd hok (by simp)
      case isFalse hlen =>
        simp only [] at hok
        have hne : ¬ (newHash = (s.models modelId).ipfsMetadataHash) :=
          fun hc => hdiff hc.symm
        rw [if_neg hne] at hok
        split at hok
        · exact absurd hok (by simp)
        case isFalse hfreed =>
          simp only [Except.ok.injEq, Prod.mk.injEq] at hok
          obtain ⟨hs2, _⟩ := hok
          subst hs2
          refine ⟨?_, ?_, ?_, huniq2⟩
          · simp [hdiff]
          · simp
          · simp
    · exact absurd hok (by simp)

/-- C2 counterexample: in the upgradeable registry a reachable state holds
two distinct registered assets (ids 0 and 1) with the same content hash: the
empty hash passes registration unvalidated, and an approved operator's
metadata update on a nonexistent asset id frees the empty hash for reuse. -/
theorem C2_counterexample_upgradeable :
    RUReachable ruS4 ∧ ruS4.modelCounter = 2 ∧ (0 : Nat) ≠ 1 ∧
    (ruS4.models 0).ipfsMetadataHash = (ruS4.models 1).ipfsMetadataHash ∧
    ¬ HashesUnique ruS4.models ruS4.modelCounter := by
  have hc : ruS4.modelCounter = 2 := rfl
  refine ⟨ruS4_reachable, hc, by decide, rfl, ?_⟩
  intro hu
  exact hu 0 1 (by rw [hc]; decide) (by rw [hc]; decide) (by decide) rfl

theorem C2_registry_hash_uniqueness_witness :
    (rState2.models 0).ipfsMetadataHash ≠ (rState2.models 1).ipfsMetadataHash ∧
    ModelRegistry.registerModel rState2 5 7 "m1" SaleType.Copies =
      Except.error RegError.hashAlreadyRegistered := by
  have hmain := C2_registry_hash_uniqueness rState2 rState2_reachable
  constructor
  · exact hmain.1 0 1 (by decide) (by decide) (by decide)
  · exact hmain.2.1 5 7 "m1" SaleType.Copies rfl

/-- C7: a valid registration (hash unassigned, and nonempty where the
revision validates emptiness) succeeds, returns exactly the pre-call
count value as the new asset id, and increments the count by one; proved
for both registry revisions. -/
theorem C7_register_returns_precall_count :
    (∀ (s : ModelRegistry.State) sender now hash saleType,
       s.ipfsHashExists hash = false → hash.length ≠ 0 →
       isOkE (ModelRegistry.registerModel s sender now hash saleType) = true ∧
       (okD (s, 0, []) (ModelRegistry.registerModel s sender now hash saleType)).2.1 =
         ModelRegistry.modelCount s ∧
       (okD (s, 0, []) (ModelRegistry.registerModel s sender now hash saleType)).1.modelCounter =
         ModelRegistry.modelCount s + 1) ∧
    (∀ (s : ModelRegistryU.State) sender now hash saleType,
       s.ipfsHashExists hash = false →
       isOkE (ModelRegistryU.registerModel s sender now hash saleType) = true ∧
       (okD (s, 0, []) (ModelRegistryU.registerModel s sender now hash saleType)).2.1 =
         ModelRegistryU.modelCount s ∧
       (okD (s, 0, []) (ModelRegistryU.registerModel s sender now hash saleType)).1.modelCounter =
         ModelRegistryU.modelCount s + 1) := by
  constructor
  · intro s sender now hash saleType hex hlen
    unfold ModelRegistry.registerModel
    simp [hex, hlen, isOkE, okD, ModelRegistry.modelCount]
  · intro s sender now hash saleType hex
    unfold ModelRegistryU.registerModel
    simp [hex, isOkE, okD, ModelRegistryU.modelCount]

theorem C7_register_returns_precall_count_witness :
    isOkE (ModelRegistry.registerModel rState1 3 150 "m2" SaleType.Copies) = true ∧
    (okD (rState1, 0, []) (ModelRegistry.registerModel rState1 3 150 "m2" SaleType.Copies)).2.1 =
      ModelRegistry.modelCount rState1 ∧
    isOkE (ModelRegistryU.registerModel ruS0 2 100 "q1" SaleType.Copies) = true := by
  have h1 := C7_register_returns_precall_count.1 rState1 3 150 "m2" SaleType.Copies rfl (by decide)
  have h2 := C7_register_returns_precall_count.2 ruS0 2 100 "q1" SaleType.Copies rfl
  exact ⟨h1.1, h1.2.1, h2.1⟩

/-- C8 (amended): in the non-upgradeable registry, registering an empty
content hash always fails with the empty-hash validation error in every
reachable state (the duplicate check that precedes it never fires because
the empty hash is never marked taken), so no asset is created and no event
emitted; the upgradeable registry has no emptiness validation and registers
the empty hash whenever it is unassigned. -/
theorem C8_empty_hash_registration (s : ModelRegistry.State) (h : RReachable s) :
    (∀ sender now saleType,
       ModelRegistry.registerModel s sender now "" saleType =
         Except.error RegError.emptyHash) ∧
    (∀ (su : ModelRegistryU.State) sender now saleType,
       su.ipfsHashExists "" = false →
       isOkE (ModelRegistryU.registerModel su sender now "" saleType) = true ∧
       ((okD (su, 0, []) (ModelRegistryU.registerModel su sender now "" saleType)).1.models
          su.modelCounter).ipfsMetadataHash = "") := by
  have hinv := regInv_reachable s h
  constructor
  · intro sender now saleType
    unfold ModelRegistry.registerModel
    simp [hinv.2.2.2]
  · intro su sender now saleType hex
    unfold ModelRegistryU.registerModel
    simp [hex, isOkE, okD]

/-- C8 counterexample: the upgradeable registry accepts an empty content
hash: on the freshly initialized registry the call succeeds and asset 0 is
created with the empty hash, instead of failing with the empty-content
error. -/
theorem C8_counterexample_upgradeable :
    isOkE (ModelRegistryU.registerModel ruS0 2 100 "" SaleType.NotForSale) = true ∧
    ruS1.modelCounter = 1 ∧ (ruS1.models 0).ipfsMetadataHash = "" :=
  ⟨rfl, rfl, rfl⟩

theorem C8_empty_hash_registration_witness :
    ModelRegistry.registerModel rState1 9 9 "" SaleType.NotForSale =
      Except.error RegError.emptyHash :=
  (C8_empty_hash_registration rState1 rState1_reachable).1 9 9 SaleType.NotForSale

/-- Upgradeable registry holding one asset: id 0, owner 2, hash m1, listed
for copies. -/
def ruReg1 : ModelRegistryU.State :=
  (okD (ModelRegistryU.initState 1, 0, [])
    (ModelRegistryU.registerModel (ModelRegistryU.initState 1) 2 100 "m1" SaleType.Copies)).1

/-- C9 (amended): same-value updates: in the non-upgradeable registry,
updating metadata to the asset's current (nonempty) hash and setting the
current sale type both succeed with no event and an unchanged state; in the
upgradeable registry setSaleType with the current type is likewise a silent
no-op, but updateModelMetadata with the asset's current (taken) hash fails
with the duplicate error instead of succeeding. -/
theorem C9_same_value_updates :
    (∀ (s : ModelRegistry.State) sender modelId,
       (s.models modelId).owner = sender →
       ((s.models modelId).ipfsMetadataHash).length ≠ 0 →
       ModelRegistry.updateModelMetadata s sender modelId
         ((s.models modelId).ipfsMetadataHash) = Except.ok (s, [])) ∧
    (∀ (s : ModelRegistry.State) sender modelId,
       (s.models modelId).owner = sender →
       ModelRegistry.setSaleType s sender modelId ((s.models modelId).saleType) =
         Except.ok (s, [])) ∧
    (∀ (su : ModelRegistryU.State) sender modelId,
       ((su.models modelId).owner = sender ∨ su.operators sender = true) →
       ModelRegistryU.setSaleType su sender modelId ((su.models modelId).saleType) =
         Except.ok (su, [])) ∧
    (∀ (su : ModelRegistryU.State) sender modelId,
       ((su.models modelId).owner = sender ∨ su.operators sender = true) →
       su.ipfsHashExists ((su.models modelId).ipfsMetadataHash) = true →
       ModelRegistryU.updateModelMetadata su sender modelId
         ((su.models modelId).ipfsMetadataHash) = Except.error RegError.duplicateNewHash) := by
  refine ⟨?_, ?_, ?_, ?_⟩
  · intro s sender modelId howner hlen
    unfold ModelRegistry.updateModelMetadata
    simp [howner, hlen]
  · intro s sender modelId howner
    unfold ModelRegistry.setSaleType
    simp [howner]
  · intro su sender modelId hauth
    unfold ModelRegistryU.setSaleType
    simp [hauth]
  · intro su sender modelId hauth hex
    unfold ModelRegistryU.updateModelMetadata
    simp [hauth, hex]

/-- C9 counterexample: in the upgradeable registry, the owner updating asset
0 to its own current hash fails with the duplicate-hash error rather than
succeeding as a silent no-op. -/
theorem C9_counterexample_upgradeable :
    (ruReg1.models 0).ipfsMetadataHash = "m1" ∧ (ruReg1.models 0).owner = 2 ∧
    ModelRegistryU.updateModelMetadata ruReg1 2 0 "m1" =
      Except.error RegError.duplicateNewHash :=
  ⟨rfl, rfl, rfl⟩

theorem C9_same_value_updates_witness :
    ModelRegistry.updateModelMetadata rState1 2 0 "m1" = Except.ok (rState1, []) ∧
    ModelRegistry.setSaleType rState1 2 0 SaleType.NotForSale = Except.ok (rState1, []) ∧
    ModelRegistryU.setSaleType ruReg1 2 0 SaleType.Copies = Except.ok (ruReg1, []) := by
  refine ⟨?_, ?_, ?_⟩
  · exact C9_same_value_updates.1 rState1 2 0 rfl (by decide)
  · exact C9_same_value_updates.2.1 rState1 2 0 rfl
  · exact C9_same_value_updates.2.2.1 ruReg1 2 0 (Or.inl rfl)

lemma setSaleTypeU_result (s s2 : ModelRegistryU.State) (sender modelId : Nat) (st : SaleType)
    (evs : List RegEvent)
    (hok : ModelRegistryU.setSaleType s sender modelId st = Except.ok (s2, evs)) :
    (s2.models modelId).saleType = st := by
  unfold ModelRegistryU.setSaleType at hok
  split at hok
  case isTrue hauth =>
    split at hok
    case isTrue hdiff =>
      simp only [Except.ok.injEq, Prod.mk.injEq] at hok
      obtain ⟨hs2, _⟩ := hok
      subst hs2
      simp
    case isFalse hsame =>
      simp only [Except.ok.injEq, Prod.mk.injEq] at hok
      obtain ⟨hs2, _⟩ := hok
      subst hs2
      exact not_not.mp hsame
  · exact absurd hok (by simp)

/-- Non-upgradeable marketplace over the one-asset registry rState1 (asset 0,
owner 2, hash m1, NotForSale); fee wallet 9, fee 3 percent, nothing listed. -/
def mBase : Marketplace.State :=
  { registry := rState1, marketplaceAddr := 50, platformFeeWallet := 9, platformFeePercent := 3,
    copySales := fun _ => zeroCopySale, subscriptions := fun _ => zeroSubscription,
    userSubscriptions := fun _ _ => 0 }

/-- mBase with asset 0 listed for copies at price 100, capacity 2. -/
def mListed : Marketplace.State :=
  { mBase with
    copySales := fun i =>
      if i = 0 then { price := 100, totalCopies := 2, soldCopies := 0 } else zeroCopySale }

/-- mBase with asset 0 listed for copies and sold out (2 of 2 sold). -/
def mSoldOut : Marketplace.State :=
  { mBase with
    copySales := fun i =>
      if i = 0 then { price := 100, totalCopies := 2, soldCopies := 2 } else zeroCopySale }

/-- mBase with asset 0 listed for subscription at rate 50 per 86400 s. -/
def mSub : Marketplace.State :=
  { mBase with
    subscriptions := fun i =>
      if i = 0 then { rate := 50, durationSeconds := 86400 } else zeroSubscription }

/-- Upgradeable registry with asset 0 (owner 2, hash m1, NotForSale) and the
marketplace address 50 approved as operator, as the deployment fixture does. -/
def ruFixA : ModelRegistryU.State :=
  (okD (ModelRegistryU.initState 1, 0, [])
    (ModelRegistryU.registerModel (ModelRegistryU.initState 1) 2 100 "m1" SaleType.NotForSale)).1

def ruFix : ModelRegistryU.State :=
  (okD (ruFixA, []) (ModelRegistryU.setOperator ruFixA 1 50 true)).1

/-- Upgradeable marketplace over ruFix; fee wallet 9, fee 3 percent. -/
def muBase : MarketplaceU.State :=
  { registry := ruFix, marketplaceAddr := 50, platformFeeWallet := 9, platformFeePercent := 3,
    copySales := fun _ => zeroCopySale, subscriptions := fun _ => zeroSubscription,
    userSubscriptions := fun _ _ => 0 }

/-- muBase with asset 0 listed for copies at price 100, capacity 2. -/
def muListed : MarketplaceU.State :=
  { muBase with
    copySales := fun i =>
      if i = 0 then { price := 100, totalCopies := 2, soldCopies := 0 } else zeroCopySale }

/-- muBase with asset 0 listed for copies and sold out (2 of 2 sold). -/
def muSoldOut : MarketplaceU.State :=
  { muBase with
    copySales := fun i =>
      if i = 0 then { price := 100, totalCopies := 2, soldCopies := 2 } else zeroCopySale }

/-- muBase with asset 0 listed for subscription at rate 50 per 86400 s. -/
def muSub : MarketplaceU.State :=
  { muBase with
    subscriptions := fun i =>
      if i = 0 then { rate := 50, durationSeconds := 86400 } else zeroSubscription }

/-- C3 (amended): a successful listForCopies creates the listing with
soldCopies 0 and emits the listing event in both marketplace revisions, but
only the upgradeable revision sets the registry sale type to Copies; the
non-upgradeable revision leaves the registry state untouched. -/
theorem C3_list_for_copies_effects :
    (∀ (s : MarketplaceU.State) sender modelId price totalCopies s2 evs,
       MarketplaceU.listItemForCopies s sender modelId price totalCopies = Except.ok (s2, evs) →
       s2.copySales modelId = { price := price, totalCopies := totalCopies, soldCopies := 0 } ∧
       (s2.registry.models modelId).saleType = SaleType.Copies ∧
       MarketEvent.ItemListedForCopies modelId sender price totalCopies ∈ evs) ∧
    (∀ (s : Marketplace.State) sender modelId price totalCopies s2 evs,
       Marketplace.listItemForCopies s sender modelId price totalCopies = Except.ok (s2, evs) →
       s2.copySales modelId = { price := price, totalCopies := totalCopies, soldCopies := 0 } ∧
       evs = [MarketEvent.ItemListedForCopies modelId sender price totalCopies] ∧
       s2.registry = s.registry) := by
  constructor
  · intro s sender modelId price totalCopies s2 evs hok
    unfold MarketplaceU.listItemForCopies at hok
    simp only [ModelRegistryU.getModel] at hok
    split at hok
    · exact absurd hok (by simp)
    case isFalse howner =>
      split at hok
      · exact absurd hok (by simp)
      case isFalse hprice =>
        split at hok
        · exact absurd hok (by simp)
        case isFalse hcopies =>
          split at hok
          · exact absurd hok (by simp)
          case isFalse hlisted =>
            split at hok
            case h_1 e heq => exact absurd hok (by simp)
            case h_2 rs revs heq =>
              simp only [Except.ok.injEq, Prod.mk.injEq] at hok
              obtain ⟨hs2, hevs⟩ := hok
              subst hs2
              refine ⟨by simp, ?_, ?_⟩
              · exact setSaleTypeU_result s.registry rs s.marketplaceAddr modelId
                  SaleType.Copies revs heq
              · rw [← hevs]
                simp
  · intro s sender modelId price totalCopies s2 evs hok
    unfold Marketplace.listItemForCopies at hok
    split at hok
    · exact absurd hok (by simp)
    case isFalse hprice =>
      split at hok
      · exact absurd hok (by simp)
      case isFalse hcopies =>
        simp only [] at hok
        split at hok
        · exact absurd hok (by simp)
        case isFalse hzero =>
          split at hok
          · exact absurd hok (by simp)
          case isFalse howner =>
            split at hok
            · exact absurd hok (by simp)
            case isFalse hlisted =>
              simp only [Except.ok.injEq, Prod.mk.injEq] at hok
              obtain ⟨hs2, hevs⟩ := hok
              subst hs2
              exact ⟨by simp, hevs.symm, rfl⟩

/-- C3 counterexample: on the non-upgradeable pair, listing asset 0 for
copies succeeds yet the registry sale type for asset 0 stays NotForSale
rather than becoming Copies. -/
theorem C3_counterexample_nonupgradeable :
    isOkE (Marketplace.listItemForCopies mBase 2 0 5 10) = true ∧
    ((okD (mBase, []) (Marketplace.listItemForCopies mBase 2 0 5 10)).1.registry.models 0).saleType
      = SaleType.NotForSale ∧
    SaleType.NotForSale ≠ SaleType.Copies :=
  ⟨rfl, rfl, by decide⟩

theorem C3_list_for_copies_effects_witness :
    ((okD (muBase, []) (MarketplaceU.listItemForCopies muBase 2 0 5 10)).1.registry.models 0).saleType
      = SaleType.Copies ∧
    (okD (muBase, []) (MarketplaceU.listItemForCopies muBase 2 0 5 10)).1.copySales 0 =
      { price := 5, totalCopies := 10, soldCopies := 0 } ∧
    (okD (mBase, []) (Marketplace.listItemForCopies mBase 2 0 5 10)).1.copySales 0 =
      { price := 5, totalCopies := 10, soldCopies := 0 } := by
  have h1 := C3_list_for_copies_effects.1 muBase 2 0 5 10 _ _ rfl
  have h2 := C3_list_for_copies_effects.2 mBase 2 0 5 10 _ _ rfl
  exact ⟨h1.2.1, h1.1, h2.1⟩

/-- C5 (amended): payment semantics of buyCopy diverge between revisions:
the non-upgradeable buyCopy requires exact payment (any mismatch on a
listed, not-sold-out asset fails with IncorrectPayment and no state change),
while the upgradeable buyCopy fails with IncorrectPayment exactly when the
payment is below the price and accepts any payment at or above it. -/
theorem C5_payment_semantics :
    (∀ (s : Marketplace.State) sender modelId msgValue,
       (s.copySales modelId).price ≠ 0 →
       (s.copySales modelId).soldCopies < (s.copySales modelId).totalCopies →
       msgValue ≠ (s.copySales modelId).price →
       Marketplace.buyCopy s sender modelId msgValue =
         Except.error MarketError.incorrectPayment) ∧
    (∀ (s : MarketplaceU.State) sender modelId msgValue,
       (s.copySales modelId).price ≠ 0 →
       msgValue < (s.copySales modelId).price →
       MarketplaceU.buyCopy s sender modelId msgValue =
         Except.error MarketError.incorrectPayment) ∧
    (∀ (s : MarketplaceU.State) sender modelId msgValue,
       (s.copySales modelId).price ≤ msgValue →
       MarketplaceU.buyCopy s sender modelId msgValue ≠
         Except.error MarketError.incorrectPayment) := by
  refine ⟨?_, ?_, ?_⟩
  · intro s sender modelId msgValue hp hsold hv
    have hns : ¬ (s.copySales modelId).soldCopies ≥ (s.copySales modelId).totalCopies := by omega
    unfold Marketplace.buyCopy
    simp only []
    rw [if_neg hp, if_neg hns, if_pos hv]
  · intro s sender modelId msgValue hp hv
    unfold MarketplaceU.buyCopy
    simp only []
    rw [if_neg hp, if_pos hv]
  · intro s sender modelId msgValue hv
    have hnv : ¬ msgValue < (s.copySales modelId).price := not_lt.mpr hv
    unfold MarketplaceU.buyCopy
    simp only []
    split
    · simp
    case isFalse hp =>
      split
      · simp
      case isFalse hso =>
        split
        · simp
        · simp

/-- C5 counterexample: the upgradeable buyCopy accepts an overpayment of 101
against a listing priced 100 and transfers the funds, instead of failing
with IncorrectPayment. -/
theorem C5_counterexample_upgradeable_overpayment :
    (101 : Nat) ≠ (muListed.copySales 0).price ∧
    isOkE (MarketplaceU.buyCopy muListed 7 0 101) = true ∧
    (okD (muListed, [], []) (MarketplaceU.buyCopy muListed 7 0 101)).2.1 = [(9, 3), (2, 98)] :=
  ⟨by decide, rfl, rfl⟩

theorem C5_payment_semantics_witness :
    Marketplace.buyCopy mListed 7 0 99 = Except.error MarketError.incorrectPayment ∧
    MarketplaceU.buyCopy muListed 7 0 99 = Except.error MarketError.incorrectPayment ∧
    MarketplaceU.buyCopy muListed 7 0 100 ≠ Except.error MarketError.incorrectPayment := by
  refine ⟨?_, ?_, ?_⟩
  · exact C5_payment_semantics.1 mListed 7 0 99 (by decide) (by decide) (by decide)
  · exact C5_payment_semantics.2.1 muListed 7 0 99 (by decide) (by decide)
  · exact C5_payment_semantics.2.2 muListed 7 0 100 (by decide)

/-- C6 (amended): buyCopy on a sold-out listing never succeeds in either
revision, so soldCopies is unchanged and no funds move; the non-upgradeable
revision reports SoldOut regardless of the attached payment, while the
upgradeable revision checks payment first: it reports SoldOut only when the
payment is at least the price and IncorrectPayment when it is below. -/
theorem C6_sold_out_semantics :
    (∀ (s : Marketplace.State) sender modelId msgValue,
       (s.copySales modelId).price ≠ 0 →
       (s.copySales modelId).soldCopies ≥ (s.copySales modelId).totalCopies →
       Marketplace.buyCopy s sender modelId msgValue = Except.error MarketError.soldOut) ∧
    (∀ (s : MarketplaceU.State) sender modelId msgValue,
       (s.copySales modelId).price ≠ 0 →
       (s.copySales modelId).soldCopies ≥ (s.copySales modelId).totalCopies →
       (s.copySales modelId).price ≤ msgValue →
       MarketplaceU.buyCopy s sender modelId msgValue = Except.error MarketError.soldOut) ∧
    (∀ (s : MarketplaceU.State) sender modelId msgValue,
       (s.copySales modelId).price ≠ 0 →
       (s.copySales modelId).soldCopies ≥ (s.copySales modelId).totalCopies →
       msgValue < (s.copySales modelId).price →
       MarketplaceU.buyCopy s sender modelId msgValue =
         Except.error MarketError.incorrectPayment) := by
  refine ⟨?_, ?_, ?_⟩
  · intro s sender modelId msgValue hp hsold
    unfold Marketplace.buyCopy
    simp only []
    rw [if_neg hp, if_pos hsold]
  · intro s sender modelId msgValue hp hsold hv
    have hnv : ¬ msgValue < (s.copySales modelId).price := not_lt.mpr hv
    unfold MarketplaceU.buyCopy
    simp only []
    rw [if_neg hp, if_neg hnv, if_pos hsold]
  · intro s sender modelId msgValue hp hsold hv
    unfold MarketplaceU.buyCopy
    simp only []
    rw [if_neg hp, if_pos hv]

/-- C6 counterexample: on the upgradeable marketplace, buying a sold-out
listing with a payment below its price fails with IncorrectPayment, not with
the sold-out error the claim requires for every payment amount. -/
theorem C6_counterexample_upgradeable_underpaid_soldout :
    (muSoldOut.copySales 0).soldCopies = (muSoldOut.copySales 0).totalCopies ∧
    MarketplaceU.buyCopy muSoldOut 7 0 50 = Except.error MarketError.incorrectPayment ∧
    MarketError.incorrectPayment ≠ MarketError.soldOut :=
  ⟨rfl, rfl, by decide⟩

theorem C6_sold_out_semantics_witness :
    Marketplace.buyCopy mSoldOut 7 0 55 = Except.error MarketError.soldOut ∧
    MarketplaceU.buyCopy muSoldOut 7 0 100 = Except.error MarketError.soldOut := by
  constructor
  · exact C6_sold_out_semantics.1 mSoldOut 7 0 55 (by decide) (by decide)
  · exact C6_sold_out_semantics.2.1 muSoldOut 7 0 100 (by decide) (by decide) (by decide)

/-- C1: in every successful buyCopy and subscribe of either marketplace
revision, the transfers are exactly the platform fee, floor of paid times
feePercent over 100, to the fee wallet, and the remainder to the asset
owner, and fee plus payout equals the paid amount exactly. -/
theorem C1_fee_split_exact :
    (∀ (s : Marketplace.State) sender modelId msgValue s2 tr evs,
       Marketplace.buyCopy s sender modelId msgValue = Except.ok (s2, tr, evs) →
       tr = safeTransfer s.platformFeeWallet (msgValue * s.platformFeePercent / 100) ++
         safeTransfer ((s.registry.models modelId).owner)
           (msgValue - msgValue * s.platformFeePercent / 100) ∧
       msgValue * s.platformFeePercent / 100 +
         (msgValue - msgValue * s.platformFeePercent / 100) = msgValue) ∧
    (∀ (s : MarketplaceU.State) sender modelId msgValue s2 tr evs,
       MarketplaceU.buyCopy s sender modelId msgValue = Except.ok (s2, tr, evs) →
       tr = safeTransfer s.platformFeeWallet (msgValue * s.platformFeePercent / 100) ++
         safeTransfer ((s.registry.models modelId).owner)
           (msgValue - msgValue * s.platformFeePercent / 100) ∧
       msgValue * s.platformFeePercent / 100 +
         (msgValue - msgValue * s.platformFeePercent / 100) = msgValue) ∧
    (∀ (s : Marketplace.State) sender modelId msgValue now s2 tr evs,
       Marketplace.subscribe s sender modelId msgValue now = Except.ok (s2, tr, evs) →
       tr = safeTransfer s.platformFeeWallet (msgValue * s.platformFeePercent / 100) ++
         safeTransfer ((s.registry.models modelId).owner)
           (msgValue - msgValue * s.platformFeePercent / 100) ∧
       msgValue * s.platformFeePercent / 100 +
         (msgValue - msgValue * s.platformFeePercent / 100) = msgValue) ∧
    (∀ (s : MarketplaceU.State) sender modelId msgValue now s2 tr evs,
       MarketplaceU.subscribe s sender modelId msgValue now = Except.ok (s2, tr, evs) →
       tr = safeTransfer s.platformFeeWallet (msgValue * s.platformFeePercent / 100) ++
         safeTransfer ((s.registry.models modelId).owner)
           (msgValue - msgValue * s.platformFeePercent / 100) ∧
       msgValue * s.platformFeePercent / 100 +
         (msgValue - msgValue * s.platformFeePercent / 100) = msgValue) := by
  refine ⟨?_, ?_, ?_, ?_⟩
  · intro s sender modelId msgValue s2 tr evs hok
    unfold Marketplace.buyCopy at hok
    simp only [] at hok
    split at hok
    · exact absurd hok (by simp)
    case isFalse hp =>
      split at hok
      · exact absurd hok (by simp)
      case isFalse hso =>
        split at hok
        · exact absurd hok (by simp)
        case isFalse hvne =>
          have hveq : msgValue = (s.copySales modelId).price := not_not.mp hvne
          split at hok
          · exact absurd hok (by simp)
          case h_2 payout heq =>
            unfold checkedSub at heq
            split at heq
            case isTrue hle =>
              simp only [Option.some.injEq] at heq
              subst heq
              split at hok
              · exact absurd hok (by simp)
              case isFalse hsz =>
                simp only [Except.ok.injEq, Prod.mk.injEq] at hok
                obtain ⟨hs2, htr, hevs⟩ := hok
                constructor
                · rw [← htr, hveq]
                · rw [hveq]
                  exact Nat.add_sub_cancel' hle
            · exact absurd heq (by simp)
  · intro s sender modelId msgValue s2 tr evs hok
    unfold MarketplaceU.buyCopy at hok
    simp only [ModelRegistryU.getModel] at hok
    split at hok
    · exact absurd hok (by simp)
    case isFalse hp =>
      split at hok
      · exact absurd hok (by simp)
      case isFalse hlt =>
        split at hok
        · exact absurd hok (by simp)
        case isFalse hso =>
          split at hok
          · exact absurd hok (by simp)
          case h_2 payout heq =>
            unfold checkedSub at heq
            split at heq
            case isTrue hle =>
              simp only [Option.some.injEq] at heq
              subst heq
              simp only [Except.ok.injEq, Prod.mk.injEq] at hok
              obtain ⟨hs2, htr, hevs⟩ := hok
              exact ⟨htr.symm, Nat.add_sub_cancel' hle⟩
            · exact absurd heq (by simp)
  · intro s sender modelId msgValue now s2 tr evs hok
    unfold Marketplace.subscribe at hok
    simp only [ModelRegistry.getModel] at hok
    split at hok
    · exact absurd hok (by simp)
    case isFalse hlisted =>
      split at hok
      · exact absurd hok (by simp)
      case isFalse hpay =>
        split at hok
        · exact absurd hok (by simp)
        case h_2 payout heq =>
          unfold checkedSub at heq
          split at heq
          case isTrue hle =>
            simp only [Option.some.injEq] at heq
            subst heq
            simp only [Except.ok.injEq, Prod.mk.injEq] at hok
            obtain ⟨hs2, htr, hevs⟩ := hok
            exact ⟨htr.symm, Nat.add_sub_cancel' hle⟩
          · exact absurd heq (by simp)
  · intro s sender modelId msgValue now s2 tr evs hok
    unfold MarketplaceU.subscribe at hok
    simp only [ModelRegistryU.getModel] at hok
    split at hok
    · exact absurd hok (by simp)
    case isFalse hlisted =>
      split at hok
      · exact absurd hok (by simp)
      case isFalse hpay =>
        split at hok
        · exact absurd hok (by simp)
        case h_2 payout heq =>
          unfold checkedSub at heq
          split at heq
          case isTrue hle =>
            simp only [Option.some.injEq] at heq
            subst heq
            simp only [Except.ok.injEq, Prod.mk.injEq] at hok
            obtain ⟨hs2, htr, hevs⟩ := hok
            exact ⟨htr.symm, Nat.add_sub_cancel' hle⟩
          · exact absurd heq (by simp)

theorem C1_fee_split_exact_witness :
    (okD (mListed, [], []) (Marketplace.buyCopy mListed 7 0 100)).2.1 =
      safeTransfer 9 3 ++ safeTransfer 2 97 ∧
    (okD (muSub, [], []) (MarketplaceU.subscribe muSub 7 0 50 1000)).2.1 =
      safeTransfer 9 1 ++ safeTransfer 2 49 := by
  constructor
  · exact (C1_fee_split_exact.1 mListed 7 0 100 _ _ _ rfl).1
  · exact (C1_fee_split_exact.2.2.2 muSub 7 0 50 1000 _ _ _ rfl).1

/-- C4: a successful subscribe extends a still-active grant (expiry not yet
passed) by exactly the period duration from the prior expiry, and starts an
expired or absent grant at now plus the duration; both revisions. -/
theorem C4_subscription_expiry_stacking :
    (∀ (s : Marketplace.State) sender modelId msgValue now s2 tr evs,
       Marketplace.subscribe s sender modelId msgValue now = Except.ok (s2, tr, evs) →
       (now ≤ s.userSubscriptions modelId sender →
          s2.userSubscriptions modelId sender =
            s.userSubscriptions modelId sender + (s.subscriptions modelId).durationSeconds) ∧
       (s.userSubscriptions modelId sender < now →
          s2.userSubscriptions modelId sender =
            now + (s.subscriptions modelId).durationSeconds)) ∧
    (∀ (s : MarketplaceU.State) sender modelId msgValue now s2 tr evs,
       MarketplaceU.subscribe s sender modelId msgValue now = Except.ok (s2, tr, evs) →
       (now ≤ s.userSubscriptions modelId sender →
          s2.userSubscriptions modelId sender =
            s.userSubscriptions modelId sender + (s.subscriptions modelId).durationSeconds) ∧
       (s.userSubscriptions modelId sender < now →
          s2.userSubscriptions modelId sender =
            now + (s.subscriptions modelId).durationSeconds)) := by
  constructor
  · intro s sender modelId msgValue now s2 tr evs hok
    unfold Marketplace.subscribe at hok
    simp only [ModelRegistry.getModel] at hok
    split at hok
    · exact absurd hok (by simp)
    case isFalse hlisted =>
      split at hok
      · exact absurd hok (by simp)
      case isFalse hpay =>
        split at hok
        · exact absurd hok (by simp)
        case h_2 payout heq =>
          simp only [Except.ok.injEq, Prod.mk.injEq] at hok
          obtain ⟨hs2, htr, hevs⟩ := hok
          subst hs2
          constructor
          · intro hactive
            simp only []
            rw [if_pos (⟨trivial, trivial⟩ : True ∧ True)]
            by_cases hgt : s.userSubscriptions modelId sender > now
            · rw [if_pos hgt]
            · rw [if_neg hgt]
              have : s.userSubscriptions modelId sender = now := by omega
              rw [this]
          · intro hexp
            simp only []
            rw [if_pos (⟨trivial, trivial⟩ : True ∧ True)]
            have hngt : ¬ s.userSubscriptions modelId sender > now := by omega
            rw [if_neg hngt]
  · intro s sender modelId msgValue now s2 tr evs hok
    unfold MarketplaceU.subscribe at hok
    simp only [ModelRegistryU.getModel] at hok
    split at hok
    · exact absurd hok (by simp)
    case isFalse hlisted =>
      split at hok
      · exact absurd hok (by simp)
      case isFalse hpay =>
        split at hok
        · exact absurd hok (by simp)
        case h_2 payout heq =>
          simp only [Except.ok.injEq, Prod.mk.injEq] at hok
          obtain ⟨hs2, htr, hevs⟩ := hok
          subst hs2
          constructor
          · intro hactive
            simp only []
            rw [if_pos (⟨trivial, trivial⟩ : True ∧ True)]
            by_cases hgt : s.userSubscriptions modelId sender > now
            · rw [if_pos hgt]
            · rw [if_neg hgt]
              have : s.userSubscriptions modelId sender = now := by omega
              rw [this]
          · intro hexp
            simp only []
            rw [if_pos (⟨trivial, trivial⟩ : True ∧ True)]
            have hngt : ¬ s.userSubscriptions modelId sender > now := by omega
            rw [if_neg hngt]

theorem C4_subscription_expiry_stacking_witness :
    (okD (mSub, [], []) (Marketplace.subscribe mSub 7 0 50 1000)).1.userSubscriptions 0 7 =
      1000 + 86400 ∧
    (okD (muSub, [], []) (MarketplaceU.subscribe muSub 7 0 50 1000)).1.userSubscriptions 0 7 =
      1000 + 86400 := by
  constructor
  · exact (C4_subscription_expiry_stacking.1 mSub 7 0 50 1000 _ _ _ rfl).2 (by decide)
  · exact (C4_subscription_expiry_stacking.2 muSub 7 0 50 1000 _ _ _ rfl).2 (by decide)

lemma setSaleTypeU_auth_ok (s : ModelRegistryU.State) (sender modelId : Nat) (st : SaleType)
    (hauth : (s.models modelId).owner = sender ∨ s.operators sender = true) :
    isOkE (ModelRegistryU.setSaleType s sender modelId st) = true := by
  unfold ModelRegistryU.setSaleType
  rw [if_pos hauth]
  split
  · rfl
  · rfl

/-- C10 (amended): on the upgradeable pair, with the marketplace approved as
registry operator, listForSubscription by the asset owner succeeds for any
rate and any duration, including zero, stores the listing, sets the registry
sale type to Subscription and emits the listing event; subscribe against a
listing whose rate or duration is zero then fails with the not-listed error.
On the non-upgradeable pair the same call by the owner always fails, because
the registry's owner-only setSaleType sees the marketplace contract, not the
owner, as its caller. -/
theorem C10_subscription_listing_no_validation :
    (∀ (s : MarketplaceU.State) sender modelId rate durationSeconds,
       (s.registry.models modelId).owner = sender →
       s.registry.operators s.marketplaceAddr = true →
       isOkE (MarketplaceU.listItemForSubscription s sender modelId rate durationSeconds) = true ∧
       (okD (s, []) (MarketplaceU.listItemForSubscription s sender modelId rate
          durationSeconds)).1.subscriptions modelId =
         { rate := rate, durationSeconds := durationSeconds } ∧
       ((okD (s, []) (MarketplaceU.listItemForSubscription s sender modelId rate
          durationSeconds)).1.registry.models modelId).saleType = SaleType.Subscription ∧
       MarketEvent.ItemListedForSubscription modelId sender rate durationSeconds ∈
         (okD (s, []) (MarketplaceU.listItemForSubscription s sender modelId rate
            durationSeconds)).2) ∧
    (∀ (s : MarketplaceU.State) sender modelId msgValue now,
       (s.subscriptions modelId).rate = 0 ∨ (s.subscriptions modelId).durationSeconds = 0 →
       MarketplaceU.subscribe s sender modelId msgValue now =
         Except.error MarketError.notListedForCopies) ∧
    (∀ (s : Marketplace.State) sender modelId rate durationSeconds,
       (s.registry.models modelId).owner = sender →
       (s.registry.models modelId).owner ≠ s.marketplaceAddr →
       Marketplace.listItemForSubscription s sender modelId rate durationSeconds =
         Except.error (MarketError.registryCallError RegError.notModelOwner)) := by
  refine ⟨?_, ?_, ?_⟩
  · intro s sender modelId rate durationSeconds howner hop
    have hauth : (s.registry.models modelId).owner = s.marketplaceAddr ∨
        s.registry.operators s.marketplaceAddr = true := Or.inr hop
    have hok2 := setSaleTypeU_auth_ok s.registry s.marketplaceAddr modelId
      SaleType.Subscription hauth
    unfold MarketplaceU.listItemForSubscription
    simp only [ModelRegistryU.getModel]
    rw [if_neg (fun hc => hc howner)]
    cases hmatch : ModelRegistryU.setSaleType s.registry s.marketplaceAddr modelId
        SaleType.Subscription with
    | error e =>
      rw [hmatch] at hok2
      exact absurd hok2 (by simp [isOkE])
    | ok p =>
      obtain ⟨rs, revs⟩ := p
      refine ⟨rfl, by simp [okD], ?_, ?_⟩
      · simp only [okD]
        exact setSaleTypeU_result s.registry rs s.marketplaceAddr modelId
          SaleType.Subscription revs hmatch
      · simp only [okD]
        simp
  · intro s sender modelId msgValue now hzero
    unfold MarketplaceU.subscribe
    simp only []
    rw [if_pos hzero]
  · intro s sender modelId rate durationSeconds howner hne
    have hfail : ModelRegistry.setSaleType s.registry s.marketplaceAddr modelId
        SaleType.Subscription = Except.error RegError.notModelOwner := by
      unfold ModelRegistry.setSaleType
      rw [if_neg hne]
    unfold Marketplace.listItemForSubscription
    simp only [ModelRegistry.getModel]
    rw [if_neg (fun hc => hc howner), hfail]

/-- C10 counterexample: on the non-upgradeable pair, the owner of asset 0
lists it for subscription with a perfectly ordinary rate and duration and
the call still fails: the registry rejects the marketplace contract as
caller of setSaleType. -/
theorem C10_counterexample_nonupgradeable :
    (mBase.registry.models 0).owner = 2 ∧
    Marketplace.listItemForSubscription mBase 2 0 5 3600 =
      Except.error (MarketError.registryCallError RegError.notModelOwner) :=
  ⟨rfl, rfl⟩

theorem C10_subscription_listing_no_validation_witness :
    isOkE (MarketplaceU.listItemForSubscription muBase 2 0 0 0) = true ∧
    MarketplaceU.subscribe
      (okD (muBase, []) (MarketplaceU.listItemForSubscription muBase 2 0 0 0)).1 7 0 100 1000 =
      Except.error MarketError.notListedForCopies ∧
    Marketplace.listItemForSubscription mBase 2 0 5 3600 =
      Except.error (MarketError.registryCallError RegError.notModelOwner) := by
  refine ⟨?_, ?_, ?_⟩
  · exact (C10_subscription_listing_no_validation.1 muBase 2 0 0 0 rfl rfl).1
  · exact C10_subscription_listing_no_validation.2.1 _ 7 0 100 1000 (Or.inl rfl)
  · exact C10_subscription_listing_no_validation.2.2 mBase 2 0 5 3600 rfl (by decide)
